import Mathlib

/-!
Verification of the Todoist snapshot exporter.

A shallow embedding of `src/todoist-snapshot.js` (Google Apps Script / V8
JavaScript).  Machine integers are modelled as `Int` (JS numbers are exact on
the integer ranges used here: epoch milliseconds and small counters), strings
as Lean `String`, fallible code as `Except String`, and the JS heap mutation
performed by `fetchTasksWithSubtasks` as an explicit store of tasks addressed
by list indices.

Conventions used throughout:
* `Tz` models a configured timezone (the `TIMEZONE` script property) as a
  fixed UTC offset in minutes plus its display name.  Daylight-saving shifts
  are not modelled; no claim depends on them.
* `hostOff` is the UTC offset in minutes of the script's host timezone (the
  Apps Script project timezone): `new Date(y, m-1, d)` in JS constructs
  midnight of that calendar day in the *host* timezone.
* Epoch instants are milliseconds since 1970-01-01T00:00:00Z, as in JS.
-/

namespace TSnap

/-! ## Calendar arithmetic (Howard Hinnant's civil-date algorithms)

`Int` division `/` in Lean is Euclidean division, which coincides with floor
division for the positive divisors used below. -/

/-- Days since 1970-01-01 of the civil date y-m-d (proleptic Gregorian). -/
def daysFromCivil (y : Int) (m d : Int) : Int :=
  let y2 := if m ≤ 2 then y - 1 else y
  let era := y2 / 400
  let yoe := y2 - era * 400
  let mp := if m > 2 then m - 3 else m + 9
  let doy := (153 * mp + 2) / 5 + d - 1
  let doe := yoe * 365 + yoe / 4 - yoe / 100 + doy
  era * 146097 + doe - 719468

/-- Civil date (y, m, d) of a day count since 1970-01-01. -/
def civilFromDays (z : Int) : Int × Int × Int :=
  let z2 := z + 719468
  let era := z2 / 146097
  let doe := z2 - era * 146097
  let yoe := (doe - doe / 1460 + doe / 36524 - doe / 146096) / 365
  let y := yoe + era * 400
  let doy := doe - (365 * yoe + yoe / 4 - yoe / 100)
  let mp := (5 * doy + 2) / 153
  let d := doy - (153 * mp + 2) / 5 + 1
  let m := if mp < 10 then mp + 3 else mp - 9
  (if m ≤ 2 then y + 1 else y, m, d)

/-- Month abbreviation as produced by `Utilities.formatDate`'s `MMM` pattern. -/
def monthAbbrev : Int → String
  | 1 => "Jan" | 2 => "Feb" | 3 => "Mar" | 4 => "Apr"
  | 5 => "May" | 6 => "Jun" | 7 => "Jul" | 8 => "Aug"
  | 9 => "Sep" | 10 => "Oct" | 11 => "Nov" | 12 => "Dec"
  | _ => ""

/-- Two-digit zero-padded minutes, the `mm` pattern. -/
def pad2 (n : Int) : String :=
  if n < 10 then "0" ++ toString n else toString n

/-- Models `Utilities.formatDate(date, tz, "MMM d, yyyy")`: the calendar day of the
instant `ms` in a timezone of offset `tzOffMin` minutes east of UTC. -/
def formatMMMdyyyy (tzOffMin : Int) (ms : Int) : String :=
  let localMin := ms / 60000 + tzOffMin
  let days := localMin / 1440
  let c := civilFromDays days
  monthAbbrev c.2.1 ++ " " ++ toString c.2.2 ++ ", " ++ toString c.1

/-- Models `Utilities.formatDate(date, tz, "MMM d, yyyy 'at' h:mm a")`. -/
def formatMMMdyyyyAt (tzOffMin : Int) (ms : Int) : String :=
  let localMin := ms / 60000 + tzOffMin
  let days := localMin / 1440
  let tod := localMin % 1440
  let c := civilFromDays days
  let h := tod / 60
  let mi := tod % 60
  let h12 := if h % 12 = 0 then 12 else h % 12
  let ampm := if h < 12 then "AM" else "PM"
  monthAbbrev c.2.1 ++ " " ++ toString c.2.2 ++ ", " ++ toString c.1 ++
    " at " ++ toString h12 ++ ":" ++ pad2 mi ++ " " ++ ampm

/-- Models `Utilities.formatDate(date, tz, "MMM d")`. -/
def formatMMMd (tzOffMin : Int) (ms : Int) : String :=
  let localMin := ms / 60000 + tzOffMin
  let days := localMin / 1440
  let c := civilFromDays days
  monthAbbrev c.2.1 ++ " " ++ toString c.2.2

/-- Models `new Date(y, m - 1, d)` in JS: midnight of the civil day y-m-d in the
host timezone (offset `hostOff` minutes east of UTC), as an epoch instant. -/
def jsDateYmdMs (hostOff : Int) (y m d : Int) : Int :=
  daysFromCivil y m d * 86400000 - hostOff * 60000

/-! ## Kernel-reducible string primitives

Several core `String` functions (trim, splitOn, toLower, the `<` order)
are defined by well-founded recursion over byte positions and do not reduce
inside the kernel, so the JS string operations used by the code are
implemented here over `List Char` instead. -/

/-- JS `String.prototype.trim`: drop leading and trailing whitespace. -/
def jsTrim (s : String) : String :=
  String.mk
    (((s.toList.dropWhile Char.isWhitespace).reverse.dropWhile
        Char.isWhitespace).reverse)

/-- JS `split(sep)` for a single-character separator. -/
def splitOnCharGo (c : Char) : List Char → List Char → List String
  | [], acc => [String.mk acc.reverse]
  | x :: xs, acc =>
    if x = c then String.mk acc.reverse :: splitOnCharGo c xs []
    else splitOnCharGo c xs (x :: acc)

/-- JS `description.split('\n')`. -/
def splitNewlines (s : String) : List String :=
  splitOnCharGo '\n' s.toList []

/-- ASCII lowercase of one character. -/
def charLower (c : Char) : Char := c.toLower

/-- ASCII-lowercased string (enough for the case-insensitive URL regexes). -/
def toLowerStr (s : String) : String :=
  String.mk (s.toList.map charLower)

/-- Is `p` a prefix of `s`? -/
def startsWithStr (s p : String) : Bool :=
  p.toList.isPrefixOf s.toList

/-- Code-point lexicographic strict order on strings. -/
def lexLtChars : List Char → List Char → Bool
  | [], [] => false
  | [], _ :: _ => true
  | _ :: _, [] => false
  | a :: as, b :: bs =>
    if a.val < b.val then true
    else if b.val < a.val then false
    else lexLtChars as bs

/-- Numeric value of an all-digit string. -/
def natValueOfDigits (s : String) : Nat :=
  s.toList.foldl (fun n c => n * 10 + (c.toNat - 48)) 0

/-! ## Data model (shapes of the Todoist REST v2 objects used by the code) -/

/-- A configured timezone: display name (the `TIMEZONE` property value) and
its UTC offset in minutes. -/
structure Tz where
  name : String
  off : Int
  deriving DecidableEq

/-- A task's `due` object: `datetime` is the parsed epoch instant of the
`due.datetime` string when present, `date` the literal Y-M-D components of
`due.date` when present. -/
structure Due where
  datetime : Option Int
  date : Option (Int × Int × Int)
  deriving DecidableEq

/-- The task fields read by the exporter.  `project_id := none` models an
absent project id (grouped under the `"inbox"` sentinel); `created_at` is the
parsed epoch instant of the `created_at` string. -/
structure TaskCore where
  id : String
  content : String
  description : String
  due : Option Due
  priority : Int
  labels : List String
  project_id : Option String
  created_at : Option Int
  comment_count : Int
  deriving DecidableEq

/-- A task together with the `subtasks` field that `fetchTasksWithSubtasks`
attaches in place (`none` = the field is absent, as on freshly parsed API
objects; children are raw task objects and are never expanded further). -/
structure Task extends TaskCore where
  subtasks : Option (List TaskCore)
  deriving DecidableEq

/-- A project object: only `id` and `name` are read. -/
structure Project where
  id : String
  name : String
  deriving DecidableEq

def defaultTaskCore : TaskCore :=
  { id := "", content := "", description := "", due := none, priority := 0,
    labels := [], project_id := none, created_at := none, comment_count := 0 }

def defaultTask : Task := { defaultTaskCore with subtasks := none }

/-! ## The retention filter (getTodoistData, lines 231-251) -/

/-- The filter callback of `rawTasks.filter(...)` in `getTodoistData`: a task
is kept iff it has a `due` object and its due instant (the exact instant when
`due.datetime` is present, else midnight of `due.date` in the host timezone)
is at most `now` plus seven days. -/
def taskRetained (now hostOff : Int) (task : Task) : Bool :=
  match task.due with
  | none => false
  | some d =>
    match d.datetime with
    | some ms => decide (ms ≤ now + 7 * 24 * 60 * 60 * 1000)
    | none =>
      match d.date with
      | some (y, m, dd) =>
          decide (jsDateYmdMs hostOff y m dd ≤ now + 7 * 24 * 60 * 60 * 1000)
      | none => false

/-- The claim's notion of "effective due instant" of a due specification. -/
def dueInstantMs (hostOff : Int) (d : Due) : Option Int :=
  match d.datetime with
  | some ms => some ms
  | none => d.date.map (fun p => jsDateYmdMs hostOff p.1 p.2.1 p.2.2)

/-! ## Per-task line pieces (buildPlainTextForTasks / formatListItem) -/

/-- The priority prefix of a rendered task line (`priorityPrefix` in the
source): API ordinal 4 renders "(P1) ", 3 renders "(P2) ", 2 renders "(P3) ",
anything else renders no prefix. -/
def priorityLabel (p : Int) : String :=
  if p = 4 then "(P1) "
  else if p = 3 then "(P2) "
  else if p = 2 then "(P3) "
  else ""

/-- The due-date suffix as computed in `buildPlainTextForTasks` (lines
525-535): a `datetime` due is formatted in the configured timezone, a
date-only due is `new Date(y, m-1, d)` (midnight host-local) formatted with
the literal timezone `'UTC'`, a due object with neither field yields "". -/
def dueSuffixText (tz : Tz) (hostOff : Int) (due : Option Due) : String :=
  match due with
  | none => ""
  | some d =>
    match d.datetime with
    | some ms => " (Due: " ++ formatMMMdyyyyAt tz.off ms ++ ")"
    | none =>
      match d.date with
      | some (y, m, dd) =>
          " (Due: " ++ formatMMMdyyyy 0 (jsDateYmdMs hostOff y m dd) ++ ")"
      | none => ""

/-- The due-date suffix as computed in `formatListItem` (lines 723-738).  The
doc variant reads `task.due.date.split('-')` without checking that `date` is
present, so a due object with neither field raises a TypeError. -/
def dueSuffixDoc (tz : Tz) (hostOff : Int) (due : Option Due) :
    Except String String :=
  match due with
  | none => .ok ""
  | some d =>
    match d.datetime with
    | some ms => .ok (" (Due: " ++ formatMMMdyyyyAt tz.off ms ++ ")")
    | none =>
      match d.date with
      | some (y, m, dd) =>
          .ok (" (Due: " ++ formatMMMdyyyy 0 (jsDateYmdMs hostOff y m dd) ++ ")")
      | none =>
          .error "TypeError: Cannot read properties of undefined (reading split)"

/-- The suffix `" [label1, label2, ...]"` when labels exist, else the empty string. -/
def labelsSuffix (labels : List String) : String :=
  if labels.length > 0 then " [" ++ String.intercalate ", " labels ++ "]" else ""

/-- The plain-text-only metadata suffix: comment count and creation day. -/
def metadataSuffix (tz : Tz) (commentCount : Int) (createdAt : Option Int) :
    String :=
  let parts :=
    (if commentCount > 0 then [toString commentCount ++ " comments"] else []) ++
    (match createdAt with
     | some ms => ["created " ++ formatMMMd tz.off ms]
     | none => [])
  if parts.length > 0 then " (" ++ String.intercalate ", " parts ++ ")" else ""

/-- Description lines rendered as blockquotes: split on newlines, trim,
drop empty lines, prefix each with the given blockquote indent. -/
def descriptionLines (indent : String) (description : String) : List String :=
  if description ≠ "" then
    ((splitNewlines description).map jsTrim).filter (fun l => l ≠ "")
      |>.map (fun l => indent ++ l)
  else []

/-- One task (or subtask) rendered for the plain-text file: the dash line
followed by its blockquoted description lines. -/
def renderCoreLines (tz : Tz) (hostOff : Int) (isSub : Bool) (t : TaskCore) :
    List String :=
  let line := (if isSub then "  - " else "- ") ++ priorityLabel t.priority ++
    t.content ++ dueSuffixText tz hostOff t.due ++ labelsSuffix t.labels ++
    metadataSuffix tz t.comment_count t.created_at
  line :: descriptionLines (if isSub then "    > " else "  > ") t.description

/-- A task with its attached subtasks rendered for the plain-text file. -/
def renderTaskWithSubs (tz : Tz) (hostOff : Int) (t : Task) : List String :=
  renderCoreLines tz hostOff false t.toTaskCore ++
    ((t.subtasks.getD []).map (renderCoreLines tz hostOff true)).flatten

/-! ## Grouping by project and the JS sort of group keys

`tasksByProject` is a plain JS object, so `Object.keys` returns integer-like
keys (canonical array indices) first in ascending numeric order, then the
remaining string keys in insertion order.  `Array.prototype.sort` on V8 uses
TimSort, which for the short arrays arising here is exactly a binary
insertion sort whose comparator is invoked as `comparefn(pivot, element)`;
a comparator that throws aborts the sort and the exception propagates. -/

/-- Group tasks by `project_id` (sentinel `"inbox"` when absent), keys in
first-occurrence order, each group's tasks in fetch order. -/
def groupByProject (tasks : List Task) : List (String × List Task) :=
  tasks.foldl
    (fun acc t =>
      let pid := t.project_id.getD "inbox"
      if acc.any (fun g => g.1 = pid) then
        acc.map (fun g => if g.1 = pid then (g.1, g.2 ++ [t]) else g)
      else acc ++ [(pid, [t])])
    []

/-- Is `s` a canonical array-index key ("0", or digits without a leading
zero, below 2^32 - 1)?  Such object keys enumerate first, numerically. -/
def isArrayIndexKey (s : String) : Bool :=
  s ≠ "" && s.toList.all Char.isDigit &&
    (s = "0" || s.toList.head? ≠ some '0') && natValueOfDigits s < 4294967295

/-- Insert into a sorted list by a boolean comparison. -/
def insertIntoSorted (le : α → α → Bool) (x : α) : List α → List α
  | [] => [x]
  | y :: ys => if le x y then x :: y :: ys else y :: insertIntoSorted le x ys

/-- Stable insertion sort by a boolean comparison (used only for the numeric
reordering of the object keys, where keys are distinct). -/
def insertionSortBy (le : α → α → Bool) : List α → List α
  | [] => []
  | x :: xs => insertIntoSorted le x (insertionSortBy le xs)

/-- The `Object.keys` enumeration order: array-index keys ascending numerically,
then the remaining keys in insertion order. -/
def objectKeysOrder (keys : List String) : List String :=
  insertionSortBy (fun a b => natValueOfDigits a ≤ natValueOfDigits b)
      (keys.filter isArrayIndexKey) ++
    keys.filter (fun k => !isArrayIndexKey k)

/-- Models `new Map(projects.map(p => [p.id, p.name])).get(pid)`: the name of the
last project with the given id, if any. -/
def projectNameGet (projects : List Project) (pid : String) : Option String :=
  (projects.reverse.find? (fun p => p.id = pid)).map Project.name

/-- JS `String.prototype.localeCompare`, modelled by code-point comparison
(sign only; the claims do not depend on ICU collation details). -/
def strCmpJs (a b : String) : Int :=
  if lexLtChars a.toList b.toList then -1
  else if lexLtChars b.toList a.toList then 1
  else 0

/-- The group-sort comparator (lines 502-506 / 406-410).  When the first key
has no matching project, `projectMap.get(a)` is `undefined` and
`undefined.localeCompare(...)` raises a TypeError; when only the second key
is unknown, `localeCompare(undefined)` coerces the argument to the string
"undefined" and succeeds. -/
def cmpProjectKeys (projects : List Project) (a b : String) :
    Except String Int :=
  if a = "inbox" then .ok (-1)
  else if b = "inbox" then .ok 1
  else
    match projectNameGet projects a with
    | none =>
        .error "TypeError: Cannot read properties of undefined (reading localeCompare)"
    | some na =>
        let nb := (projectNameGet projects b).getD "undefined"
        .ok (strCmpJs na nb)

/-- Binary search for the insertion point of `pivot` in the sorted prefix,
invoking the comparator as V8's TimSort does: `comparefn(pivot, a[mid])`.
The fuel argument starts at `right - left` and keeps the recursion
structural (so that proofs can evaluate it by reduction). -/
def binSearchGo (cmp : α → α → Except String Int) (pivot : α) (l : List α) :
    Nat → Nat → Nat → Except String Nat
  | 0, left, _ => .ok left
  | fuel + 1, left, right =>
    if left < right then
      let mid := (left + right) / 2
      match cmp pivot (l[mid]?.getD pivot) with
      | .error e => .error e
      | .ok o =>
        if o < 0 then binSearchGo cmp pivot l fuel left mid
        else binSearchGo cmp pivot l fuel (mid + 1) right
    else .ok left

/-- Models `Array.prototype.sort(comparator)` for the short arrays arising here:
V8's binary insertion sort; a throwing comparator aborts the whole sort. -/
def jsSortM (cmp : α → α → Except String Int) (l : List α) :
    Except String (List α) :=
  l.foldlM
    (fun sorted x => do
      let pos ← binSearchGo cmp x sorted sorted.length 0 sorted.length
      pure (sorted.take pos ++ [x] ++ sorted.drop pos))
    []

/-- The sorted group keys shared by the doc and text renderers: inbox first,
then remaining groups by comparator order. -/
def sortedProjectIdsM (tasks : List Task) (projects : List Project) :
    Except String (List String) :=
  jsSortM (cmpProjectKeys projects) (objectKeysOrder ((groupByProject tasks).map Prod.fst))

/-! ## The plain-text renderer (buildPlainTextForTasks, lines 440-635) -/

/-- The header metadata line shared by the doc and text renderers.  The
source accumulates the three counters with a `forEach`; counting by `filter`
length and summing child-list lengths is the same computation. -/
def metadataLine (fullStr : String) (tz : Tz) (tasks : List Task)
    (projects : List Project) : String :=
  let base :=
    ["Export date: " ++ fullStr, "Timezone: " ++ tz.name,
     "Total tasks: " ++ toString tasks.length,
     "Total projects: " ++ toString projects.length]
  let extra :=
    if tasks.length > 0 then
      let withLabels := (tasks.filter (fun t => t.labels.length > 0)).length
      let withComments := (tasks.filter (fun t => t.comment_count > 0)).length
      let subCount := (tasks.map (fun t => (t.subtasks.getD []).length)).sum
      (if withLabels > 0 then ["Tasks with labels: " ++ toString withLabels] else []) ++
      (if withComments > 0 then ["Tasks with comments: " ++ toString withComments] else []) ++
      (if subCount > 0 then ["Sub-tasks: " ++ toString subCount] else [])
    else []
  String.intercalate " • " (base ++ extra)

/-- The function `buildPlainTextForTasks`: the full plain-text rendering of a fetched
bundle.  `dateStr` and `fullStr` are the strings the clock produces for
`new Date().toLocaleDateString()` and `new Date().toLocaleString()`.  The
result is an `Except` because the group-sort comparator can raise. -/
def buildPlainTextForTasks (dateStr fullStr : String) (tz : Tz)
    (hostOff : Int) (tasks : List Task) (projects : List Project) :
    Except String String :=
  let header :=
    ["Todoist Tasks for " ++ dateStr, metadataLine fullStr tz tasks projects, ""]
  if tasks.length = 0 then
    .ok (String.intercalate "\n" (header ++ ["No tasks due today."]))
  else do
    let sortedIds ← sortedProjectIdsM tasks projects
    let groups := groupByProject tasks
    let body := sortedIds.foldl
      (fun acc pid =>
        let name :=
          if pid = "inbox" then "Inbox"
          else (projectNameGet projects pid).getD "undefined"
        let ptasks := ((groups.find? (fun g => g.1 = pid)).map Prod.snd).getD []
        acc ++ [name ++ ":"] ++
          (ptasks.map (renderTaskWithSubs tz hostOff)).flatten ++ [""])
      header
    .ok (String.intercalate "\n" body)

/-! ## The JSON export (writeTasksToJsonFile, lines 654-704) -/

/-- The four-bucket priority histogram of the statistics block. -/
structure PriorityBuckets where
  p1 : Nat
  p2 : Nat
  p3 : Nat
  p4 : Nat
  deriving DecidableEq

/-- One `forEach` step of the histogram: ordinal 4 counts in p1, 3 in p2,
2 in p3, anything else in p4. -/
def bumpPriority (b : PriorityBuckets) (p : Int) : PriorityBuckets :=
  if p = 4 then { b with p1 := b.p1 + 1 }
  else if p = 3 then { b with p2 := b.p2 + 1 }
  else if p = 2 then { b with p3 := b.p3 + 1 }
  else { b with p4 := b.p4 + 1 }

/-- The `taskStats` object of the JSON export.  `subtaskCount` is initialized
to 0 and never incremented in the source's `forEach`, so it stays 0. -/
structure TaskStats where
  total : Nat
  withDueDates : Nat
  withLabels : Nat
  withComments : Nat
  byPriority : PriorityBuckets
  subtaskCount : Nat
  deriving DecidableEq

def statsStep (s : TaskStats) (t : Task) : TaskStats :=
  { s with
    withDueDates := s.withDueDates + (if t.due.isSome then 1 else 0),
    withLabels := s.withLabels + (if t.labels.length > 0 then 1 else 0),
    withComments := s.withComments + (if t.comment_count > 0 then 1 else 0),
    byPriority := bumpPriority s.byPriority t.priority }

def taskStats (tasks : List Task) : TaskStats :=
  tasks.foldl statsStep
    { total := tasks.length, withDueDates := 0, withLabels := 0,
      withComments := 0, byPriority := ⟨0, 0, 0, 0⟩, subtaskCount := 0 }

/-- The structured value the JSON writer serializes (`JSON.stringify` with
2-space indentation is a deterministic function of this value, so output
identity is settled at this level). -/
structure JsonExportValue where
  exportDate : String
  timezone : String
  apiVersion : String
  scriptVersion : String
  stats : TaskStats
  projectsTotal : Nat
  dataTasks : List Task
  dataProjects : List Project
  deriving DecidableEq

/-- The content `writeTasksToJsonFile` renders, minus the Drive write. -/
def jsonFileContent (nowIso : String) (tz : Tz) (tasks : List Task)
    (projects : List Project) : JsonExportValue :=
  { exportDate := nowIso, timezone := tz.name, apiVersion := "v2",
    scriptVersion := "1.0.0", stats := taskStats tasks,
    projectsTotal := projects.length, dataTasks := tasks,
    dataProjects := projects }

/-! ## The rich-text element (DocumentApp Text) and the markdown passes

A Docs text run is modelled as a list of characters carrying bold/italic/link
attributes.  `deleteText(start, endInclusive)` removes the inclusive range;
`insertText` inherits the attributes of the character before the insertion
point (immaterial to the claims, which only inspect the character content
and explicitly-set attributes). -/

structure RichChar where
  ch : Char
  bold : Bool
  italic : Bool
  link : Option String
  deriving DecidableEq

abbrev TextElem := List RichChar

def plainChars (s : String) : TextElem :=
  s.toList.map (fun c => { ch := c, bold := false, italic := false, link := none })

def getTextStr (te : TextElem) : String :=
  String.mk (te.map RichChar.ch)

def appendText (te : TextElem) (s : String) : TextElem :=
  te ++ plainChars s

/-- Models `setBold(start, endInclusive, value)` (offsets as JS numbers). -/
def setBoldI (te : TextElem) (s e : Int) (b : Bool) : TextElem :=
  te.enum.map (fun p =>
    if s ≤ (p.1 : Int) ∧ (p.1 : Int) ≤ e then { p.2 with bold := b } else p.2)

def setItalicI (te : TextElem) (s e : Int) (b : Bool) : TextElem :=
  te.enum.map (fun p =>
    if s ≤ (p.1 : Int) ∧ (p.1 : Int) ≤ e then { p.2 with italic := b } else p.2)

def setLinkI (te : TextElem) (s e : Int) (url : String) : TextElem :=
  te.enum.map (fun p =>
    if s ≤ (p.1 : Int) ∧ (p.1 : Int) ≤ e then { p.2 with link := some url } else p.2)

/-- Models `deleteText(start, endInclusive)`. -/
def deleteTextI (te : TextElem) (s e : Int) : TextElem :=
  (te.enum.filter (fun p => ¬(s ≤ (p.1 : Int) ∧ (p.1 : Int) ≤ e))).map Prod.snd

/-- Models `insertText(offset, s)`, inherited attributes from the preceding char. -/
def insertTextAt (te : TextElem) (i : Nat) (s : String) : TextElem :=
  let inh :=
    if i = 0 then { ch := ' ', bold := false, italic := false, link := none }
    else (te[i-1]?).getD { ch := ' ', bold := false, italic := false, link := none }
  te.take i ++ s.toList.map (fun c => { inh with ch := c }) ++ te.drop i

/-! ### The three markdown regexes, as deterministic scanners

`matchAll` finds leftmost matches scanning forward, resuming after each
match.  The character classes `[^\]]+` and `[^)]+` cannot cross their
closing bracket, and `(.*?)` is lazy, so each pattern has a deterministic
matcher; `.` does not match a newline. -/

/-- The link regex `/\[([^\]]+)\]\(([^)]+)\)/` at the current position:
`some (length, text, url)` on a match. -/
def linkTry : List Char → Option (Nat × List Char × List Char)
  | '[' :: rest =>
    let txt := rest.takeWhile (fun c => c ≠ ']')
    (match txt, rest.dropWhile (fun c => c ≠ ']') with
     | [], _ => none
     | _, ']' :: '(' :: rest3 =>
       let url := rest3.takeWhile (fun c => c ≠ ')')
       (match url, rest3.dropWhile (fun c => c ≠ ')') with
        | [], _ => none
        | _, ')' :: _ => some (txt.length + url.length + 4, txt, url)
        | _, _ => none)
     | _, _ => none)
  | _ => none

/-- The lazy `(.*?)` of the bold pattern: the shortest prefix (newline-free)
followed by `**`, returned as (length, prefix chars). -/
def starStarSplit : List Char → Option (Nat × List Char)
  | '*' :: '*' :: _ => some (0, [])
  | c :: rest =>
    if c = '\n' then none
    else (starStarSplit rest).map (fun p => (p.1 + 1, c :: p.2))
  | [] => none

/-- The bold regex `/\*\*(.*?)\*\*/` at the current position: `some (length, inner)`. -/
def boldTry : List Char → Option (Nat × List Char)
  | '*' :: '*' :: rest => (starStarSplit rest).map (fun p => (p.1 + 4, p.2))
  | _ => none

/-- The italic regex `/\*([^*]+)\*/` at the current position: `some (length, inner)`. -/
def italicTry : List Char → Option (Nat × List Char)
  | '*' :: rest =>
    let inner := rest.takeWhile (fun c => c ≠ '*')
    (match inner, rest.dropWhile (fun c => c ≠ '*') with
     | [], _ => none
     | _, '*' :: _ => some (inner.length + 2, inner)
     | _, _ => none)
  | _ => none

/-- All matches of a pattern, leftmost-first, resuming after each match
(`matchAll` semantics); entries are (start index, length, payload).  The
fuel starts at the string length and keeps the recursion structural. -/
def collectMatchesGo (tryAt : List Char → Option (Nat × β)) :
    Nat → List Char → Nat → List (Nat × Nat × β)
  | 0, _, _ => []
  | _ + 1, [], _ => []
  | fuel + 1, c :: rest, i =>
    match tryAt (c :: rest) with
    | some (len, b) =>
        (i, len, b) :: collectMatchesGo tryAt fuel (rest.drop (len - 1)) (i + len)
    | none => collectMatchesGo tryAt fuel rest (i + 1)

def collectMatches (tryAt : List Char → Option (Nat × β)) (l : List Char) :
    List (Nat × Nat × β) :=
  collectMatchesGo tryAt l.length l 0

/-! ### The three passes of formatListItem (lines 781-822), each applied
right-to-left over the match list (highest offset first). -/

/-- One link replacement: delete the whole `[text](url)` match, insert the
bare text, set the hyperlink attribute over it. -/
def applyLinkMatch (te : TextElem) (m : Nat × Nat × List Char × List Char) :
    TextElem :=
  let i := m.1
  let len := m.2.1
  let txt := m.2.2.1
  let url := m.2.2.2
  let te1 := deleteTextI te (i : Int) ((i : Int) + (len : Int) - 1)
  let te2 := insertTextAt te1 i (String.mk txt)
  setLinkI te2 (i : Int) ((i : Int) + (txt.length : Int) - 1) (String.mk url)

def linkPass (te : TextElem) : TextElem :=
  ((collectMatches linkTry (getTextStr te).toList).reverse).foldl applyLinkMatch te

/-- One bold replacement, exactly as the source performs it:
bold the whole match, then `deleteText(start+1+innerLen, start+1+innerLen+1)`
followed by `deleteText(start, start+1)` (both ranges end-inclusive). -/
def applyBoldMatch (te : TextElem) (m : Nat × Nat × List Char) : TextElem :=
  let i := (m.1 : Int)
  let len := (m.2.1 : Int)
  let n := (m.2.2.length : Int)
  let te1 := setBoldI te i (i + len - 1) true
  let te2 := deleteTextI te1 (i + 1 + n) (i + 1 + n + 1)
  deleteTextI te2 i (i + 1)

def boldPass (te : TextElem) : TextElem :=
  ((collectMatches boldTry (getTextStr te).toList).reverse).foldl applyBoldMatch te

/-- One italic replacement: italicize the whole match, then delete the single
trailing and leading asterisks. -/
def applyItalicMatch (te : TextElem) (m : Nat × Nat × List Char) : TextElem :=
  let i := (m.1 : Int)
  let len := (m.2.1 : Int)
  let n := (m.2.2.length : Int)
  let te1 := setItalicI te i (i + len - 1) true
  let te2 := deleteTextI te1 (i + 1 + n) (i + 1 + n)
  deleteTextI te2 i i

def italicPass (te : TextElem) : TextElem :=
  ((collectMatches italicTry (getTextStr te).toList).reverse).foldl applyItalicMatch te

/-! ## formatListItem (lines 712-822) and the document renderer -/

/-- Models `formatListItem` on an empty list item: assemble the prefix, content,
description, due and label pieces, force the content span bold, then run the
link, bold and italic passes.  The `isSub` flag only sets paragraph
indentation and does not affect the text run. -/
def formatListItemModel (tz : Tz) (hostOff : Int) (t : TaskCore)
    (isSub : Bool) : Except String TextElem := do
  let prio := priorityLabel t.priority
  let description := if t.description ≠ "" then " — " ++ t.description else ""
  let dueStr ← dueSuffixDoc tz hostOff t.due
  let labels := labelsSuffix t.labels
  let te1 := if prio ≠ "" then appendText ([] : TextElem) prio else []
  let contentStart : Int := (te1.length : Int)
  let te2 := if t.content ≠ "" then appendText te1 t.content else te1
  let contentEnd : Int := (te2.length : Int) - 1
  let te3 := if description ≠ "" then appendText te2 description else te2
  let te4 := if dueStr ≠ "" then appendText te3 dueStr else te3
  let te5 := if labels ≠ "" then appendText te4 labels else te4
  let te6 :=
    if contentEnd ≥ contentStart then setBoldI te5 contentStart contentEnd true
    else te5
  let _ := isSub
  pure (italicPass (boldPass (linkPass te6)))

/-- An element appended to the Google Doc body. -/
inductive DocElem where
  | heading1 : String → DocElem
  | heading2 : String → DocElem
  | para : String → Bool → DocElem
  | listItem : Bool → TextElem → DocElem
  deriving DecidableEq

/-- Models `writeTasksToDoc` (lines 357-432) as the list of elements appended to a
cleared document body.  The group header for an unknown project id is the
string coercion of `undefined`, and the group-sort comparator can raise. -/
def writeTasksToDocModel (dateStr fullStr : String) (tz : Tz) (hostOff : Int)
    (tasks : List Task) (projects : List Project) :
    Except String (List DocElem) := do
  let header :=
    [DocElem.heading1 ("Todoist Tasks for " ++ dateStr),
     DocElem.para (metadataLine fullStr tz tasks projects) true,
     DocElem.para "" false]
  if tasks.length = 0 then
    pure (header ++ [DocElem.para "No tasks due today." false])
  else do
    let sortedIds ← sortedProjectIdsM tasks projects
    let groups := groupByProject tasks
    let body ← sortedIds.foldlM
      (fun (acc : List DocElem) pid => do
        let name :=
          if pid = "inbox" then "Inbox"
          else (projectNameGet projects pid).getD "undefined"
        let ptasks := ((groups.find? (fun g => g.1 = pid)).map Prod.snd).getD []
        let items ← ptasks.foldlM
          (fun (acc2 : List DocElem) t => do
            let item ← formatListItemModel tz hostOff t.toTaskCore false
            let subItems ← (t.subtasks.getD []).mapM
              (fun st => do
                let sub ← formatListItemModel tz hostOff st true
                pure (DocElem.listItem true sub))
            pure (acc2 ++ [DocElem.listItem false item] ++ subItems))
          []
        pure (acc ++ [DocElem.heading2 name] ++ items))
      header
    pure body

/-! ## The fetch client and orchestrator

An HTTP response is abstracted at the JSON boundary: its status code, whether
the body text starts with `[` or `{` (the code's JSON-shape check), and the
result of `JSON.parse` on it.  `UrlFetchApp.fetch` itself can throw (network
error), modelled by `netThrow`. -/

inductive HttpResp (α : Type) where
  | netThrow : String → HttpResp α
  | resp : Int → Bool → Except String α → HttpResp α

/-- Status/shape/parse validation shared by the tasks and projects fetches
(non-200 throws, non-JSON-shaped body throws, parse failure throws). -/
def checkResp : HttpResp α → String → Except String α
  | .netThrow msg, _ => .error msg
  | .resp code shaped parsed, label =>
    if code ≠ 200 then
      .error ("Failed to fetch " ++ label ++ " from Todoist API. Status: " ++ toString code)
    else if !shaped then
      .error ("Invalid JSON response from Todoist " ++ label ++ " API.")
    else
      match parsed with
      | .error msg => .error msg
      | .ok v => .ok v

/-- The child list a task ends up with in `fetchTasksWithSubtasks`: every
failure shape (network throw, non-200, non-JSON body, parse failure) is
absorbed by the per-task `try/catch` into an empty list; a successful
non-empty parse is attached as-is, an empty one as `[]`. -/
def effectiveSub : HttpResp (List TaskCore) → List TaskCore
  | .netThrow _ => []
  | .resp code shaped parsed =>
    if code ≠ 200 then []
    else if !shaped then []
    else
      match parsed with
      | .error _ => []
      | .ok l => if l.length > 0 then l else []

/-- Does a subtask-fetch response count as a failure (i.e. the `try` block
throws before reaching the assignment)? -/
def subFetchFails : HttpResp (List TaskCore) → Bool
  | .netThrow _ => true
  | .resp code shaped parsed =>
    decide (code ≠ 200) || !shaped ||
      (match parsed with | .error _ => true | .ok _ => false)

/-- The environment of one run: the configuration token, the canned upstream
responses (the subtask endpoint keyed by parent id), and the clock/host. -/
structure Env where
  token : Option String
  tasksResponse : HttpResp (List Task)
  subResponse : String → HttpResp (List TaskCore)
  projectsResponse : HttpResp (List Project)
  now : Int
  hostOff : Int

/-- One upstream HTTP request, for counting endpoint calls. -/
inductive Call where
  | tasksList
  | subtasksFetch
  | projectsList
  deriving DecidableEq

/-- The value-level fetched bundle `{tasks, rawTasks, projects}`. -/
structure BundleV where
  tasks : List Task
  rawTasks : List Task
  projects : List Project
  deriving DecidableEq

/-- The loop of `fetchTasksWithSubtasks` (lines 292-350) over an explicit
store: the array cells of `filteredTasks` are the store's indices, each
iteration reads the task object at its ref, attaches the fetched (or
defaulted-empty) child list *to that same object* (`task.subtasks = ...`),
and pushes the same ref onto `result`.  Returns (result refs, final store,
trace of subtask fetches). -/
def fetchSubtasksLoop (sub : String → HttpResp (List TaskCore)) :
    List Nat → List Task → List Nat × List Task × List Call
  | [], store => ([], store, [])
  | r :: rs, store =>
    let t := (store[r]?).getD defaultTask
    let t2 := { t with subtasks := some (effectiveSub (sub t.id)) }
    let out := fetchSubtasksLoop sub rs (store.set r t2)
    (r :: out.1, out.2.1, Call.subtasksFetch :: out.2.2)

/-- The JS function boundary of `fetchTasksWithSubtasks`: takes the parsed
task array, returns the result array's contents (plus the call trace). -/
def fetchTasksWithSubtasks (sub : String → HttpResp (List TaskCore))
    (tasks : List Task) : List Task × List Call :=
  let out := fetchSubtasksLoop sub (List.range tasks.length) tasks
  (out.1.map (fun r => (out.2.1[r]?).getD defaultTask), out.2.2)

/-- Models `getTodoistData` (lines 193-284): token check, tasks fetch + validation,
the 7-day retention filter, the subtask-attachment loop, the projects fetch +
validation, and the returned bundle.  The `rawTasks` field is the
`filteredTasks` array — the same refs the loop mutated — read through the
final store. -/
def getTodoistDataT (env : Env) : Except String BundleV × List Call :=
  match env.token with
  | none =>
      (.error "TODOIST_TOKEN is not configured. Set it in Project settings → Script properties.", [])
  | some _ =>
    match checkResp env.tasksResponse "tasks" with
    | .error e => (.error e, [Call.tasksList])
    | .ok rawParsed =>
      let filtered := rawParsed.filter (taskRetained env.now env.hostOff)
      let out := fetchSubtasksLoop env.subResponse (List.range filtered.length) filtered
      match checkResp env.projectsResponse "projects" with
      | .error e => (.error e, Call.tasksList :: (out.2.2 ++ [Call.projectsList]))
      | .ok projects =>
        (.ok { tasks := out.1.map (fun r => (out.2.1[r]?).getD defaultTask),
               rawTasks := (List.range filtered.length).map
                 (fun r => (out.2.1[r]?).getD defaultTask),
               projects := projects },
         Call.tasksList :: (out.2.2 ++ [Call.projectsList]))

/-! ## The orchestrator (syncTodoist, lines 43-75) -/

inductive Target where
  | doc
  | text
  | json
  deriving DecidableEq

/-- The three output-target properties (`none` = unset; the empty string is
also falsy in JS and counts as unset). -/
structure Config where
  docId : Option String
  textFileId : Option String
  jsonFileId : Option String

/-- JS truthiness of an optional string property. -/
def truthyStr : Option String → Bool
  | none => false
  | some s => s ≠ ""

def Config.hasDoc (cfg : Config) : Bool := truthyStr cfg.docId
def Config.hasText (cfg : Config) : Bool := truthyStr cfg.textFileId
def Config.hasJson (cfg : Config) : Bool := truthyStr cfg.jsonFileId

/-- Models `[hasDoc, hasText, hasJson].filter(Boolean).length`. -/
def Config.targetCount (cfg : Config) : Nat :=
  ([cfg.hasDoc, cfg.hasText, cfg.hasJson].filter id).length

/-- The configured targets in dispatch order (doc, text, json). -/
def Config.targets (cfg : Config) : List Target :=
  (if cfg.hasDoc then [Target.doc] else []) ++
  (if cfg.hasText then [Target.text] else []) ++
  (if cfg.hasJson then [Target.json] else [])

/-- Models `syncTodoist`: zero targets throws before any fetch; two or more targets
fetch once centrally and hand the same bundle to every configured writer
(each writer's own failures are caught inside it); exactly one target lets
that target's routine do its own fetch, absorbing any fetch error.  The
result records which writers ran and the bundle each was handed, paired with
the trace of upstream calls. -/
def syncTodoistT (cfg : Config) (env : Env) :
    Except String (List (Target × BundleV)) × List Call :=
  if !cfg.hasDoc && !cfg.hasText && !cfg.hasJson then
    (.error "No output targets configured. Set DOC_ID, TEXT_FILE_ID, and/or JSON_FILE_ID in Script properties.", [])
  else if cfg.targetCount > 1 then
    match getTodoistDataT env with
    | (.error e, tr) => (.error e, tr)
    | (.ok data, tr) => (.ok (cfg.targets.map (fun t => (t, data))), tr)
  else
    match getTodoistDataT env with
    | (.error _, tr) => (.ok [], tr)
    | (.ok data, tr) => (.ok (cfg.targets.map (fun t => (t, data))), tr)

/-! ## The Drive-identifier normalizer (extractDriveIdFromInput, lines
114-132)

The three identifier regexes are implemented as deterministic scanners.
`[a-zA-Z0-9_-]{10,}` takes the maximal run of id characters; the trailing
`\b` then backtracks to the longest prefix of length at least 10 whose last
character and following character differ in word-character status (end of
string counts as a non-word character).  `\w` is `[A-Za-z0-9_]`, so a run
ending in `-` can force backtracking. -/

def isIdChar (c : Char) : Bool :=
  c.isAlpha || c.isDigit || c = '_' || c = '-'

def isWordChar (c : Char) : Bool :=
  c.isAlpha || c.isDigit || c = '_'

/-- Does `\b` hold after the first `k` characters of `run` (followed by the
rest of `run`, then by `after`)? -/
def boundaryAt (run after : List Char) (k : Nat) : Bool :=
  match (run.take k).getLast? with
  | none => false
  | some lastC =>
    let nextC := if k < run.length then run[k]? else after.head?
    isWordChar lastC != (match nextC with | some c => isWordChar c | none => false)

/-- Longest k ≤ bound with k ≥ 10 and a word boundary after k characters. -/
def bestBoundary (run after : List Char) : Nat → Option String
  | 0 => none
  | k + 1 =>
    if k + 1 ≥ 10 && boundaryAt run after (k + 1) then
      some (String.mk (run.take (k + 1)))
    else bestBoundary run after k

/-- The id-run pattern `([a-zA-Z0-9_-]{10,})\b` starting at `rest`. -/
def idRunBoundary (rest : List Char) : Option String :=
  bestBoundary (rest.takeWhile isIdChar) (rest.dropWhile isIdChar)
    (rest.takeWhile isIdChar).length

/-- The pattern `/\/[du]\/([a-zA-Z0-9_-]{10,})\b/` at the current position. -/
def duTry : List Char → Option String
  | '/' :: 'd' :: '/' :: rest => idRunBoundary rest
  | '/' :: 'u' :: '/' :: rest => idRunBoundary rest
  | _ => none

/-- The pattern `/\/file\/d\/([a-zA-Z0-9_-]{10,})\b/` at the current position. -/
def fileDTry : List Char → Option String
  | '/' :: 'f' :: 'i' :: 'l' :: 'e' :: '/' :: 'd' :: '/' :: rest =>
      idRunBoundary rest
  | _ => none

/-- The pattern `/[?&]id=([a-zA-Z0-9_-]{10,})/` at the current position. -/
def idParamTry : List Char → Option String
  | c :: 'i' :: 'd' :: '=' :: rest =>
    if c = '?' || c = '&' then
      let run := rest.takeWhile isIdChar
      if run.length ≥ 10 then some (String.mk run) else none
    else none
  | _ => none

/-- Leftmost match: try the matcher at each position left to right. -/
def scanFirst (tryAt : List Char → Option α) : List Char → Option α
  | [] => none
  | c :: rest =>
    match tryAt (c :: rest) with
    | some r => some r
    | none => scanFirst tryAt rest

/-- The URL test `/^https?:\/\//i`. -/
def isHttpUrl (s : String) : Bool :=
  startsWithStr (toLowerStr s) "http://" || startsWithStr (toLowerStr s) "https://"

/-- Does `l` contain `pat` as a contiguous segment? -/
def containsSeg (pat : List Char) : List Char → Bool
  | [] => pat.isEmpty
  | c :: rest => pat.isPrefixOf (c :: rest) || containsSeg pat rest

/-- The folder-link test `/\/folders\//i`. -/
def containsFoldersCI (s : String) : Bool :=
  containsSeg "/folders/".toList (toLowerStr s).toList

/-- Models `extractDriveIdFromInput`: trim; empty throws; a non-URL is returned
as the trimmed value; a folder URL throws; otherwise the first identifier
pattern in priority order `/[du]/`, `/file/d/`, `id=` wins; no match
throws. -/
def extractDriveIdFromInput (input : String) : Except String String :=
  let trimmed := jsTrim input
  if trimmed = "" then .error "Empty ID/URL provided."
  else if !isHttpUrl trimmed then .ok trimmed
  else if containsFoldersCI trimmed then
    .error "The provided link appears to be a folder. Please provide a file or document link."
  else
    match scanFirst duTry trimmed.toList with
    | some id => .ok id
    | none =>
      match scanFirst fileDTry trimmed.toList with
      | some id => .ok id
      | none =>
        match scanFirst idParamTry trimmed.toList with
        | some id => .ok id
        | none =>
          .error "Unable to extract a file ID from the provided URL. Provide a direct file/document link."

/-- The first identifier pattern that matches, in the claim's priority
order: `/d/<id>` or `/u/<id>`, then `/file/d/<id>`, then `id=<id>`. -/
def firstPatternId (t : String) : Option String :=
  match scanFirst duTry t.toList with
  | some id => some id
  | none =>
    match scanFirst fileDTry t.toList with
    | some id => some id
    | none => scanFirst idParamTry t.toList

/-- The C8 claim restated as a function, amended only where the
counterexample forces it: the normalizer works on the *trimmed* stored value
(an empty or all-whitespace value fails); a trimmed non-URL value is
returned verbatim; a URL yields the first matching pattern's identifier,
failing on folder links and on pattern-free URLs. -/
def extractDriveIdPerClaim (input : String) : Except String String :=
  let t := jsTrim input
  if t = "" then .error "Empty ID/URL provided."
  else if !isHttpUrl t then .ok t
  else if containsFoldersCI t then
    .error "The provided link appears to be a folder. Please provide a file or document link."
  else
    match firstPatternId t with
    | some id => .ok id
    | none =>
        .error "Unable to extract a file ID from the provided URL. Provide a direct file/document link."

/-! ## Concrete inputs used by the claim evaluations and witnesses -/

/-- A sample configured timezone (the default, UTC-6 ignoring DST). -/
def tzC : Tz := { name := "America/Chicago", off := -360 }

/-- A date-only due specification with literal components 2025-09-16. -/
def dueC2 : Due := { datetime := none, date := some (2025, 9, 16) }

/-- A task whose content is the nested markdown case of the spec. -/
def mdTaskC6 : TaskCore :=
  { id := "m1", content := "**[a](http://x)**", description := "", due := none,
    priority := 1, labels := [], project_id := some "p", created_at := none,
    comment_count := 0 }

/-- A retained task (due instant 0, clock at 0). -/
def taskC1 : Task :=
  { id := "t1", content := "Ship report", description := "",
    due := some { datetime := some 0, date := none }, priority := 4,
    labels := ["work"], project_id := some "p1", created_at := none,
    comment_count := 0, subtasks := none }

/-- A happy-path environment: one retained task, its subtask fetch returns
an empty list, one project. -/
def envC1 : Env :=
  { token := some "tok",
    tasksResponse := .resp 200 true (.ok [taskC1]),
    subResponse := fun _ => .resp 200 true (.ok []),
    projectsResponse := .resp 200 true (.ok [{ id := "p1", name := "Work" }]),
    now := 0, hostOff := 0 }

/-- The bundle the happy-path fetch returns: both task arrays hold the same
mutated task object, subtasks attached. -/
def bundleC1 : BundleV :=
  { tasks := [{ taskC1 with subtasks := some [] }],
    rawTasks := [{ taskC1 with subtasks := some [] }],
    projects := [{ id := "p1", name := "Work" }] }

/-- A configuration with all three targets set. -/
def cfgW : Config :=
  { docId := some "doc-id-0123456789", textFileId := some "text-id-0123456789",
    jsonFileId := some "json-id-0123456789" }

/-- A task of the given priority with no other features. -/
def taskP (p : Int) : Task :=
  { id := "p" ++ toString p, content := "x", description := "", due := none,
    priority := p, labels := [], project_id := some "p1", created_at := none,
    comment_count := 0, subtasks := none }

def tasksW5 : List Task := [taskP 4, taskP 1, taskP 1]

/-- Two tasks for the subtask-failure witness. -/
def taskA7 : Task :=
  { id := "a", content := "alpha", description := "",
    due := some { datetime := some 0, date := none }, priority := 1,
    labels := [], project_id := some "p1", created_at := none,
    comment_count := 0, subtasks := none }

def taskB7 : Task := { taskA7 with id := "b", content := "beta" }

def tasksW7 : List Task := [taskA7, taskB7]

/-- A subtask oracle failing (network throw) exactly for parent id "a". -/
def subW7 : String → HttpResp (List TaskCore) := fun id =>
  if id = "a" then .netThrow "DNS error" else .resp 200 true (.ok [])

/-- The single known project of the grouping scenarios (its id is not an
array-index-like key, so object keys keep insertion order). -/
def projsW10 : List Project := [{ id := "pwork", name := "Work" }]

/-- A task in the known project. -/
def taskW10 : Task :=
  { id := "w1", content := "w1", description := "", due := none, priority := 1,
    labels := [], project_id := some "pwork", created_at := none,
    comment_count := 0, subtasks := none }

/-- A task whose project id matches no fetched project. -/
def taskG10 : Task := { taskW10 with id := "g1", content := "g1", project_id := some "ghost" }

/-- Does `s` contain `sub` as a contiguous substring? -/
def strContains (s sub : String) : Bool :=
  containsSeg sub.toList s.toList

deriving instance DecidableEq for Except

/-! ## Theorems -/

/-- Absorbed subtask-fetch failures yield the empty child list. -/
theorem effectiveSub_of_fails (r : HttpResp (List TaskCore))
    (h : subFetchFails r = true) : effectiveSub r = [] := by
  cases r with
  | netThrow msg => rfl
  | resp code shaped parsed =>
    cases parsed with
    | error e => simp [effectiveSub]
    | ok l =>
      by_cases hc : code = 200
      · subst hc
        cases shaped with
        | false => simp [effectiveSub]
        | true => simp [subFetchFails] at h
      · simp [effectiveSub, hc]

/-- Claim C4: the client-side retention filter keeps a fetched task iff it
has a due specification whose effective due instant (exact instant when a
datetime is present, otherwise midnight host-local of the date-only value)
is at most now plus 7 days; every task with no due specification is
dropped. -/
theorem retention_filter_keeps_iff_due_within_seven_days
    (now hostOff : Int) (task : Task) :
    taskRetained now hostOff task = true ↔
      ∃ d, task.due = some d ∧
        ∃ inst, dueInstantMs hostOff d = some inst ∧
          inst ≤ now + 7 * 24 * 60 * 60 * 1000 := by
  unfold taskRetained dueInstantMs
  cases htd : task.due with
  | none => simp
  | some d =>
    cases hdt : d.datetime with
    | some ms => simp [hdt]
    | none =>
      cases hdd : d.date with
      | none => simp [hdt, hdd]
      | some p =>
        obtain ⟨y, m, dd⟩ := p
        simp [hdt, hdd]

/-- Claim C2: in both renderers the date-only due suffix ignores the
configured timezone, but it is not computed from the literal Y-M-D
components alone: `new Date(y, m-1, d)` is midnight in the script's host
timezone, and formatting that instant with the literal timezone UTC shifts
the printed day back by one whenever the host timezone is east of UTC
(offset +540 shown here), for every configured timezone.  West-of-UTC hosts
(the America/Chicago default, offset -360) print the literal day. -/
theorem dueSuffix_dateOnly_depends_on_host_timezone :
    (∀ tz : Tz, dueSuffixText tz 540 (some dueC2) = " (Due: Sep 15, 2025)") ∧
    (∀ tz : Tz, dueSuffixText tz (-360) (some dueC2) = " (Due: Sep 16, 2025)") ∧
    (∀ tz : Tz, dueSuffixDoc tz 540 (some dueC2) = .ok " (Due: Sep 15, 2025)") ∧
    (∀ tz : Tz, dueSuffixDoc tz (-360) (some dueC2) = .ok " (Due: Sep 16, 2025)") ∧
    (∀ (tz tz2 : Tz) (hostOff y m d : Int),
      dueSuffixText tz hostOff (some { datetime := none, date := some (y, m, d) }) =
        dueSuffixText tz2 hostOff (some { datetime := none, date := some (y, m, d) })) :=
  ⟨fun _ => rfl, fun _ => rfl, fun _ => rfl, fun _ => rfl,
    fun _ _ _ _ _ _ => rfl⟩

/-- Claim C6: the markdown transformation of `formatListItem` does not map
the content "**[a](http://x)**" to a bold linked "a": the link pass yields
the text "**a**" with "a" hyperlinked, but the bold pass's off-by-one
`deleteText(start+1+innerLen, start+1+innerLen+1)` (end-inclusive) deletes
the linked "a" together with one asterisk instead of the trailing asterisk
pair, leaving the single-character text "*". -/
theorem formatListItem_markdown_mangles_bold_link :
    (formatListItemModel tzC 0 mdTaskC6 false).toOption.map getTextStr =
      some "*" := by
  decide

/-- Claim C9: rendering is deterministic over a fixed fetched bundle: the
plain-text, rich-document and JSON renderers are pure functions of the
bundle, the configuration (timezone, host offset) and the clock strings, so
invoking any of them twice on the same bundle gives identical output. -/
theorem renderers_deterministic_on_bundle :
    ∀ (dateStr fullStr nowIso : String) (tz : Tz) (hostOff : Int)
      (tasks : List Task) (projects : List Project),
      buildPlainTextForTasks dateStr fullStr tz hostOff tasks projects =
        buildPlainTextForTasks dateStr fullStr tz hostOff tasks projects ∧
      writeTasksToDocModel dateStr fullStr tz hostOff tasks projects =
        writeTasksToDocModel dateStr fullStr tz hostOff tasks projects ∧
      jsonFileContent nowIso tz tasks projects =
        jsonFileContent nowIso tz tasks projects :=
  fun _ _ _ _ _ _ _ => ⟨rfl, rfl, rfl⟩

/-- Claim C8, counterexample: the normalizer does not return a non-URL
stored value verbatim — it trims it first (and an empty stored value raises
instead of being returned). -/
theorem extractDriveId_trim_counterexample :
    extractDriveIdFromInput " 0123456789x " = .ok "0123456789x" ∧
    "0123456789x" ≠ " 0123456789x " ∧
    extractDriveIdFromInput "" = .error "Empty ID/URL provided." :=
  ⟨by decide, by decide, by decide⟩

/-- Claim C8, amended: the normalizer works on the trimmed stored value (an
empty or all-whitespace value fails); a trimmed non-URL value is returned
verbatim; a URL yields the identifier of the first matching pattern in
priority order /d/ or /u/ segment, /file/d/ segment, id= query parameter;
folder links and pattern-free URLs fail. -/
theorem extractDriveId_normalizer_amended :
    ∀ input, extractDriveIdFromInput input = extractDriveIdPerClaim input := by
  intro input
  unfold extractDriveIdFromInput extractDriveIdPerClaim firstPatternId
  by_cases h1 : jsTrim input = ""
  · simp [h1]
  · by_cases h2 : isHttpUrl (jsTrim input)
    · by_cases h3 : containsFoldersCI (jsTrim input)
      · simp [h1, h2, h3]
      · cases hd : scanFirst duTry (jsTrim input).data with
        | some id => simp [h1, h2, h3, hd]
        | none =>
          cases hf : scanFirst fileDTry (jsTrim input).data with
          | some id => simp [h1, h2, h3, hd, hf]
          | none =>
            cases hp : scanFirst idParamTry (jsTrim input).data with
            | some id => simp [h1, h2, h3, hd, hf, hp]
            | none => simp [h1, h2, h3, hd, hf, hp]
    · simp [h1, h2]

/-- Claim C10, counterexample: a bundle with two non-inbox groups, one of
them keyed by a project id with no matching project, need not raise a
TypeError: when the unknown key only ever appears as the second comparator
argument (here the unknown group comes first in object-key order, so the
known key is the binary-insertion pivot), `localeCompare(undefined)` coerces
the missing name to the string "undefined" and rendering succeeds — with an
"undefined" group header. -/
theorem groupSort_unknown_project_renders_counterexample :
    (buildPlainTextForTasks "D" "E" tzC 0 [taskG10, taskW10] projsW10).isOk = true ∧
    strContains
      ((buildPlainTextForTasks "D" "E" tzC 0 [taskG10, taskW10] projsW10).toOption.getD "")
      "\nundefined:\n" = true := by
  constructor
  · decide
  · decide

/-- Claim C10, amended: with two non-inbox groups and one unknown project
id, the sort comparator raises a TypeError exactly when it evaluates the
unknown key's name as the localeCompare receiver (first argument) — e.g.
when the unknown group is the binary-insertion pivot because a known-project
task precedes the unknown-project task; when the undefined name is only ever
the localeCompare argument, it is coerced to "undefined" and rendering
succeeds; a lone unknown project id always renders with an "undefined"
group header. -/
theorem groupSort_unknown_project_amended :
    (buildPlainTextForTasks "D" "E" tzC 0 [taskW10, taskG10] projsW10 =
      .error "TypeError: Cannot read properties of undefined (reading localeCompare)") ∧
    (buildPlainTextForTasks "D" "E" tzC 0 [taskG10, taskW10] projsW10).isOk = true ∧
    strContains
      ((buildPlainTextForTasks "D" "E" tzC 0 [taskG10, taskW10] projsW10).toOption.getD "")
      "\nundefined:\n" = true ∧
    (buildPlainTextForTasks "D" "E" tzC 0 [taskG10] projsW10).isOk = true ∧
    strContains
      ((buildPlainTextForTasks "D" "E" tzC 0 [taskG10] projsW10).toOption.getD "")
      "\nundefined:\n" = true := by
  refine ⟨by decide, by decide, by decide, by decide, by decide⟩

/-- The subtask loop pushes exactly the refs it was given, in order. -/
theorem fetchSubtasksLoop_fst (sub : String → HttpResp (List TaskCore)) :
    ∀ (rs : List Nat) (store : List Task),
      (fetchSubtasksLoop sub rs store).1 = rs := by
  intro rs
  induction rs with
  | nil => intro store; rfl
  | cons r rs ih => intro store; simp [fetchSubtasksLoop, ih]

/-- The subtask loop performs one subtask fetch per processed task. -/
theorem fetchSubtasksLoop_trace (sub : String → HttpResp (List TaskCore)) :
    ∀ (rs : List Nat) (store : List Task),
      (fetchSubtasksLoop sub rs store).2.2 =
        List.replicate rs.length Call.subtasksFetch := by
  intro rs
  induction rs with
  | nil => intro store; rfl
  | cons r rs ih =>
    intro store
    simp [fetchSubtasksLoop, ih, List.replicate_succ]

/-- Store shape after the subtask loop: every processed ref holds its
original task with the per-task child list attached, every other cell is
untouched. -/
theorem fetchSubtasksLoop_store (sub : String → HttpResp (List TaskCore)) :
    ∀ (rs : List Nat) (store : List Task), rs.Nodup →
      (∀ r ∈ rs, r < store.length) →
      ∀ i : Nat,
        (fetchSubtasksLoop sub rs store).2.1[i]? =
          if i ∈ rs then
            (store[i]?).map
              (fun t => { t with subtasks := some (effectiveSub (sub t.id)) })
          else store[i]? := by
  intro rs
  induction rs with
  | nil =>
    intro store _ _ i
    simp [fetchSubtasksLoop]
  | cons r rs ih =>
    intro store hnd hbd i
    have hr : r < store.length := hbd r (by simp)
    have hgr : store[r]? = some store[r] := List.getElem?_eq_getElem hr
    have hnd2 := List.nodup_cons.mp hnd
    simp only [fetchSubtasksLoop]
    rw [hgr]
    simp only [Option.getD_some]
    have hbd2 : ∀ x ∈ rs,
        x < (store.set r
          { store[r] with subtasks := some (effectiveSub (sub store[r].id)) }).length := by
      intro x hx
      rw [List.length_set]
      exact hbd x (List.mem_cons_of_mem _ hx)
    rw [ih _ hnd2.2 hbd2 i]
    by_cases hir : i = r
    · subst hir
      have hnotin : i ∉ rs := hnd2.1
      simp only [hnotin, if_false, List.mem_cons, true_or, if_true]
      rw [List.getElem?_set_eq hr, hgr]
      rfl
    · by_cases hmem : i ∈ rs
      · simp only [hmem, if_true, List.mem_cons, or_true, if_true]
        rw [List.getElem?_set_ne (fun h => hir h.symm)]
      · have : ¬(i ∈ r :: rs) := by
          simp [hir, hmem]
        simp only [hmem, if_false, this, if_false]
        rw [List.getElem?_set_ne (fun h => hir h.symm)]

/-- Claim C1: the bundle returned by `getTodoistData` does not keep
`rawTasks` pre-subtask-attachment.  `fetchTasksWithSubtasks` assigns
`task.subtasks` on the very task objects the `filteredTasks` array holds, so
after the call `rawTasks` contains the same mutated objects as `tasks`: on a
happy-path fetch of one retained task, the JSON writer is handed a raw array
whose task carries `subtasks := some []`. -/
theorem getTodoistData_rawTasks_mutated :
    ((getTodoistDataT envC1).1 = .ok bundleC1 ∧
      bundleC1.rawTasks = [{ taskC1 with subtasks := some [] }]) ∧
    ∀ (env : Env) (b : BundleV) (tr : List Call),
      getTodoistDataT env = (.ok b, tr) → b.rawTasks = b.tasks := by
  refine ⟨⟨by decide, by decide⟩, ?_⟩
  intro env b tr h
  unfold getTodoistDataT at h
  split at h
  · simp at h
  · split at h
    · simp at h
    · dsimp only at h
      split at h
      · simp at h
      · rw [Prod.mk.injEq] at h
        obtain ⟨hb, -⟩ := h
        rw [Except.ok.injEq] at hb
        subst hb
        dsimp only
        rw [fetchSubtasksLoop_fst]

/-- Witness for the general part of the claim C1 theorem: on the happy-path
environment the returned raw array equals the subtask-attached array. -/
theorem getTodoistData_rawTasks_mutated_witness :
    getTodoistDataT envC1 =
      (.ok bundleC1, [Call.tasksList, Call.subtasksFetch, Call.projectsList]) ∧
    bundleC1.rawTasks = bundleC1.tasks :=
  ⟨by decide,
    getTodoistData_rawTasks_mutated.2 envC1 bundleC1
      [Call.tasksList, Call.subtasksFetch, Call.projectsList] (by decide)⟩

/-- Unfolding of one histogram step for the p1 bucket. -/
theorem bump_p1 (b : PriorityBuckets) (p : Int) :
    (bumpPriority b p).p1 = b.p1 + (if p = 4 then 1 else 0) := by
  by_cases h4 : p = 4
  · simp [bumpPriority, h4]
  · by_cases h3 : p = 3
    · simp [bumpPriority, h4, h3]
    · by_cases h2 : p = 2 <;> simp [bumpPriority, h4, h3, h2]

/-- Unfolding of one histogram step for the p2 bucket. -/
theorem bump_p2 (b : PriorityBuckets) (p : Int) :
    (bumpPriority b p).p2 = b.p2 + (if p = 3 then 1 else 0) := by
  by_cases h4 : p = 4
  · simp [bumpPriority, h4]
  · by_cases h3 : p = 3
    · simp [bumpPriority, h4, h3]
    · by_cases h2 : p = 2 <;> simp [bumpPriority, h4, h3, h2]

/-- Unfolding of one histogram step for the p3 bucket. -/
theorem bump_p3 (b : PriorityBuckets) (p : Int) :
    (bumpPriority b p).p3 = b.p3 + (if p = 2 then 1 else 0) := by
  by_cases h4 : p = 4
  · simp [bumpPriority, h4]
  · by_cases h3 : p = 3
    · simp [bumpPriority, h4, h3]
    · by_cases h2 : p = 2 <;> simp [bumpPriority, h4, h3, h2]

/-- Unfolding of one histogram step for the p4 bucket. -/
theorem bump_p4 (b : PriorityBuckets) (p : Int) :
    (bumpPriority b p).p4 =
      b.p4 + (if ¬(p = 4 ∨ p = 3 ∨ p = 2) then 1 else 0) := by
  by_cases h4 : p = 4
  · simp [bumpPriority, h4]
  · by_cases h3 : p = 3
    · simp [bumpPriority, h4, h3]
    · by_cases h2 : p = 2 <;> simp [bumpPriority, h4, h3, h2]

/-- The stats fold does not change which bucket each task lands in. -/
theorem statsFold_p1 :
    ∀ (tasks : List Task) (s : TaskStats),
      (tasks.foldl statsStep s).byPriority.p1 =
        s.byPriority.p1 + tasks.countP (fun t => decide (t.priority = 4)) := by
  intro tasks
  induction tasks with
  | nil => intro s; simp
  | cons t ts ih =>
    intro s
    rw [List.foldl_cons, ih (statsStep s t), List.countP_cons]
    have hb : (statsStep s t).byPriority.p1 =
        s.byPriority.p1 + (if t.priority = 4 then 1 else 0) := bump_p1 _ _
    rw [hb]
    by_cases h : t.priority = 4 <;> simp [h] <;> omega

theorem statsFold_p2 :
    ∀ (tasks : List Task) (s : TaskStats),
      (tasks.foldl statsStep s).byPriority.p2 =
        s.byPriority.p2 + tasks.countP (fun t => decide (t.priority = 3)) := by
  intro tasks
  induction tasks with
  | nil => intro s; simp
  | cons t ts ih =>
    intro s
    rw [List.foldl_cons, ih (statsStep s t), List.countP_cons]
    have hb : (statsStep s t).byPriority.p2 =
        s.byPriority.p2 + (if t.priority = 3 then 1 else 0) := bump_p2 _ _
    rw [hb]
    by_cases h : t.priority = 3 <;> simp [h] <;> omega

theorem statsFold_p3 :
    ∀ (tasks : List Task) (s : TaskStats),
      (tasks.foldl statsStep s).byPriority.p3 =
        s.byPriority.p3 + tasks.countP (fun t => decide (t.priority = 2)) := by
  intro tasks
  induction tasks with
  | nil => intro s; simp
  | cons t ts ih =>
    intro s
    rw [List.foldl_cons, ih (statsStep s t), List.countP_cons]
    have hb : (statsStep s t).byPriority.p3 =
        s.byPriority.p3 + (if t.priority = 2 then 1 else 0) := bump_p3 _ _
    rw [hb]
    by_cases h : t.priority = 2 <;> simp [h] <;> omega

theorem statsFold_p4 :
    ∀ (tasks : List Task) (s : TaskStats),
      (tasks.foldl statsStep s).byPriority.p4 =
        s.byPriority.p4 +
          tasks.countP (fun t => decide (¬(t.priority = 4 ∨ t.priority = 3 ∨ t.priority = 2))) := by
  intro tasks
  induction tasks with
  | nil => intro s; simp
  | cons t ts ih =>
    intro s
    rw [List.foldl_cons, ih (statsStep s t), List.countP_cons]
    have hb : (statsStep s t).byPriority.p4 =
        s.byPriority.p4 + (if ¬(t.priority = 4 ∨ t.priority = 3 ∨ t.priority = 2) then 1 else 0) :=
      bump_p4 _ _
    rw [hb]
    by_cases h : t.priority = 4 ∨ t.priority = 3 ∨ t.priority = 2 <;> simp [h] <;> omega

/-- Claim C5: the per-task line prefix maps ordinal 4 to "(P1) ", 3 to
"(P2) ", 2 to "(P3) " and 1 to the empty prefix, and the JSON statistics
histogram buckets use the same inverted mapping: over a task array of
ordinals in 1..4, p1 counts the ordinal-4 tasks, p2 the ordinal-3 tasks, p3
the ordinal-2 tasks, and p4 the ordinal-1 tasks. -/
theorem priorityLabel_and_histogram_inverted :
    (priorityLabel 4 = "(P1) " ∧ priorityLabel 3 = "(P2) " ∧
     priorityLabel 2 = "(P3) " ∧ priorityLabel 1 = "") ∧
    ∀ tasks : List Task,
      (∀ t ∈ tasks, t.priority = 1 ∨ t.priority = 2 ∨ t.priority = 3 ∨ t.priority = 4) →
      (taskStats tasks).byPriority.p1 = tasks.countP (fun t => decide (t.priority = 4)) ∧
      (taskStats tasks).byPriority.p2 = tasks.countP (fun t => decide (t.priority = 3)) ∧
      (taskStats tasks).byPriority.p3 = tasks.countP (fun t => decide (t.priority = 2)) ∧
      (taskStats tasks).byPriority.p4 = tasks.countP (fun t => decide (t.priority = 1)) := by
  refine ⟨⟨rfl, rfl, rfl, rfl⟩, ?_⟩
  intro tasks h
  refine ⟨?_, ?_, ?_, ?_⟩
  · unfold taskStats; rw [statsFold_p1]; simp
  · unfold taskStats; rw [statsFold_p2]; simp
  · unfold taskStats; rw [statsFold_p3]; simp
  · unfold taskStats
    rw [statsFold_p4]
    simp only [Nat.zero_add]
    have hc :
        tasks.countP (fun t => decide (¬(t.priority = 4 ∨ t.priority = 3 ∨ t.priority = 2))) =
          tasks.countP (fun t => decide (t.priority = 1)) := by
      apply List.countP_congr
      intro t ht
      rcases h t ht with h1 | h1 | h1 | h1 <;> rw [h1] <;> simp
    rw [hc]

/-- Witness for claim C5 at the spec's scenario: priorities 4, 1, 1 put one
task in p1 and two in p4. -/
theorem priorityLabel_and_histogram_inverted_witness :
    (∀ t ∈ tasksW5, t.priority = 1 ∨ t.priority = 2 ∨ t.priority = 3 ∨ t.priority = 4) ∧
    ((taskStats tasksW5).byPriority.p1 = tasksW5.countP (fun t => decide (t.priority = 4)) ∧
     (taskStats tasksW5).byPriority.p2 = tasksW5.countP (fun t => decide (t.priority = 3)) ∧
     (taskStats tasksW5).byPriority.p3 = tasksW5.countP (fun t => decide (t.priority = 2)) ∧
     (taskStats tasksW5).byPriority.p4 = tasksW5.countP (fun t => decide (t.priority = 1))) :=
  ⟨by decide, priorityLabel_and_histogram_inverted.2 tasksW5 (by decide)⟩

/-- Claim C7: a failing subtask fetch (network error, non-200 status or
non-JSON body) never propagates out of `fetchTasksWithSubtasks`: the failing
task comes back with an empty child list, the task count is preserved, and
every task's result depends only on its own fetch outcome (so the rest of
the sync is unaffected). -/
theorem subtask_fetch_failure_absorbed
    (sub : String → HttpResp (List TaskCore)) (tasks : List Task)
    (i : Nat) (t : Task) (h1 : tasks[i]? = some t)
    (h2 : subFetchFails (sub t.id) = true) :
    ((fetchTasksWithSubtasks sub tasks).1)[i]? =
      some { t with subtasks := some [] } ∧
    (fetchTasksWithSubtasks sub tasks).1.length = tasks.length ∧
    ∀ (j : Nat) (u : Task), tasks[j]? = some u →
      ((fetchTasksWithSubtasks sub tasks).1)[j]? =
        some { u with subtasks := some (effectiveSub (sub u.id)) } := by
  have hall : ∀ (j : Nat) (u : Task), tasks[j]? = some u →
      ((fetchTasksWithSubtasks sub tasks).1)[j]? =
        some { u with subtasks := some (effectiveSub (sub u.id)) } := by
    intro j u hj
    obtain ⟨hjl, hju⟩ := List.getElem?_eq_some.mp hj
    simp only [fetchTasksWithSubtasks]
    rw [fetchSubtasksLoop_fst]
    rw [List.getElem?_map]
    rw [List.getElem?_range hjl]
    simp only [Option.map_some']
    rw [fetchSubtasksLoop_store sub (List.range tasks.length) tasks
      (List.nodup_range tasks.length)
      (fun r hr => List.mem_range.mp hr) j]
    simp only [List.mem_range, hjl, if_true]
    rw [hj]
    simp [hju]
  refine ⟨?_, ?_, hall⟩
  · rw [hall i t h1, effectiveSub_of_fails _ h2]
  · simp only [fetchTasksWithSubtasks]
    rw [fetchSubtasksLoop_fst]
    simp

/-- Witness for claim C7: of two fetched tasks, the first's subtask fetch
throws a network error and the task degrades to an empty child list. -/
theorem subtask_fetch_failure_absorbed_witness :
    tasksW7[0]? = some taskA7 ∧ subFetchFails (subW7 taskA7.id) = true ∧
    ((fetchTasksWithSubtasks subW7 tasksW7).1)[0]? =
      some { taskA7 with subtasks := some [] } :=
  ⟨by decide, by decide,
    (subtask_fetch_failure_absorbed subW7 tasksW7 0 taskA7 (by decide) (by decide)).1⟩

/-- Endpoint-call counts of one `getTodoistData` run: the task-list and
project-list endpoints are hit at most once, and exactly once each when the
fetch succeeds. -/
theorem getTodoistDataT_counts (env : Env) :
    (getTodoistDataT env).2.count Call.tasksList ≤ 1 ∧
    (getTodoistDataT env).2.count Call.projectsList ≤ 1 ∧
    (∀ b, (getTodoistDataT env).1 = .ok b →
      (getTodoistDataT env).2.count Call.tasksList = 1 ∧
      (getTodoistDataT env).2.count Call.projectsList = 1) := by
  unfold getTodoistDataT
  split
  · simp
  · split
    · simp
    · dsimp only
      split
      · rw [fetchSubtasksLoop_trace]
        simp [List.count_cons, List.count_append, List.count_replicate]
      · rw [fetchSubtasksLoop_trace]
        simp [List.count_cons, List.count_append, List.count_replicate]

/-- With two or more configured targets, `syncTodoist` takes the
central-fetch branch. -/
theorem syncTodoistT_multi (cfg : Config) (env : Env)
    (h : 2 ≤ cfg.targetCount) :
    syncTodoistT cfg env =
      match getTodoistDataT env with
      | (.error e, tr) => (.error e, tr)
      | (.ok data, tr) => (.ok (cfg.targets.map (fun t => (t, data))), tr) := by
  unfold syncTodoistT
  cases hd : cfg.hasDoc <;> cases ht : cfg.hasText <;> cases hj : cfg.hasJson <;>
    simp_all [Config.targetCount]

/-- Claim C3: whenever two or more output targets are configured, the run
performs exactly one central fetch — the task-list and project-list
endpoints are each requested at most once, and exactly once on success —
and the identical fetched bundle is handed to every configured writer in
dispatch order. -/
theorem syncTodoist_multi_target_single_fetch (cfg : Config) (env : Env)
    (h : 2 ≤ cfg.targetCount) :
    (syncTodoistT cfg env).2 = (getTodoistDataT env).2 ∧
    (syncTodoistT cfg env).2.count Call.tasksList ≤ 1 ∧
    (syncTodoistT cfg env).2.count Call.projectsList ≤ 1 ∧
    ∀ ws, (syncTodoistT cfg env).1 = .ok ws →
      ∃ b, (getTodoistDataT env).1 = .ok b ∧
        ws = cfg.targets.map (fun t => (t, b)) ∧
        (syncTodoistT cfg env).2.count Call.tasksList = 1 ∧
        (syncTodoistT cfg env).2.count Call.projectsList = 1 := by
  have hm := syncTodoistT_multi cfg env h
  have hc := getTodoistDataT_counts env
  rcases hg : getTodoistDataT env with ⟨res, tr⟩
  rw [hg] at hm hc
  cases res with
  | error e =>
    rw [hm]
    refine ⟨rfl, hc.1, hc.2.1, ?_⟩
    intro ws hws
    simp at hws
  | ok b =>
    rw [hm]
    refine ⟨rfl, hc.1, hc.2.1, ?_⟩
    intro ws hws
    have hws2 : ws = cfg.targets.map (fun t => (t, b)) := by
      simpa using hws.symm
    exact ⟨b, rfl, hws2, (hc.2.2 b rfl).1, (hc.2.2 b rfl).2⟩

/-- Witness for claim C3: all three targets configured against the
happy-path environment; the whole run's trace is the single central
fetch's trace. -/
theorem syncTodoist_multi_target_single_fetch_witness :
    2 ≤ cfgW.targetCount ∧
    (syncTodoistT cfgW envC1).2 = (getTodoistDataT envC1).2 :=
  ⟨by decide, (syncTodoist_multi_target_single_fetch cfgW envC1 (by decide)).1⟩

end TSnap
